import Mathlib

/-!
Verification development for the amazon-music-buyer pricing service.

The definitions below are a shallow embedding of the TypeScript sources
(src/pricing-service/src/scraper.ts, types.ts, index.ts).  Conventions:

* Money is represented exactly as integer cents: a price of 1.29 dollars
  is the natural number 129.  (The source stores JavaScript numbers; every
  price the parser can produce has at most two decimals, so cents are exact.)
* Browser interaction is represented by explicit environment records
  (an oracle for what each navigation, locator and text read returns);
  steps whose exceptions escape to the enclosing try/catch are modelled
  with Except, steps whose exceptions are swallowed by a local catch are
  modelled as Option-valued oracle fields.
* Timed waits, screenshots and console logging have no effect on any
  returned value and are not modelled.
-/

/-! ## Character and string primitives -/

/-- Numeric value of a digit character. -/
def digitVal (c : Char) : Nat := c.toNat - 48

/-- Value of a digit string, most significant digit first
(what parseFloat computes on an all-digit capture group). -/
def natOfDigits (ds : List Char) : Nat := ds.foldl (fun n c => n * 10 + digitVal c) 0

/-- Maximal digit run at the head of a character list, with the remainder.
This is the greedy one-or-more-digits part of the source regexes; in every
pattern of scraper.ts the run is followed by a non-digit requirement, so the
greedy maximal run is the only candidate the regex engine can accept. -/
def splitDigits : List Char → List Char × List Char
  | [] => ([], [])
  | c :: cs =>
    if c.isDigit then
      let p := splitDigits cs
      (c :: p.1, p.2)
    else ([], c :: cs)

/-- Whitespace class of the source regexes and of JavaScript trim
(restricted to the ASCII range, which covers every string the program builds). -/
def isJsSpace (c : Char) : Bool :=
  c = ' ' || c = '\t' || c = '\n' || c = '\r' || c = '\x0b' || c = '\x0c'

/-- JavaScript String.prototype.trim. -/
def trimChars (l : List Char) : List Char :=
  ((l.dropWhile isJsSpace).reverse.dropWhile isJsSpace).reverse

/-- scraper.ts line 56: priceText.replace over newline and tab, then trim. -/
def cleanData (s : String) : List Char :=
  trimChars (s.data.filter (fun c => !(c = '\n' || c = '\t')))

/-! ## The four price regexes (scraper.ts lines 59 to 64)

Each patK function returns the capture of the leftmost match of pattern K in
cents, or none when the pattern does not match; scanning advances one input
character at a time exactly as the regex engine moves its start position. -/

/-- Pattern 1: dollar sign, digit run, dot, two digits (for example 1.29 dollars). -/
def pat1 : List Char → Option Nat
  | [] => none
  | c :: cs =>
    if c = '$' then
      match splitDigits cs with
      | ([], _) => pat1 cs
      | (ds, rest) =>
        match rest with
        | '.' :: d1 :: d2 :: _ =>
          if d1.isDigit && d2.isDigit then
            some (natOfDigits ds * 100 + digitVal d1 * 10 + digitVal d2)
          else pat1 cs
        | _ => pat1 cs
    else pat1 cs

/-- Pattern 2: dollar sign followed by a digit run (a whole-dollar amount). -/
def pat2 : List Char → Option Nat
  | [] => none
  | c :: cs =>
    if c = '$' then
      match splitDigits cs with
      | ([], _) => pat2 cs
      | (ds, _) => some (natOfDigits ds * 100)
    else pat2 cs

/-- Pattern 3: bare digit run, dot, two digits. -/
def pat3 : List Char → Option Nat
  | [] => none
  | c :: cs =>
    if c.isDigit then
      let p := splitDigits (c :: cs)
      match p.2 with
      | '.' :: d1 :: d2 :: _ =>
        if d1.isDigit && d2.isDigit then
          some (natOfDigits p.1 * 100 + digitVal d1 * 10 + digitVal d2)
        else pat3 cs
      | _ => pat3 cs
    else pat3 cs

/-- Pattern 4: digit run, optional spaces, dot, optional spaces, two digits. -/
def pat4 : List Char → Option Nat
  | [] => none
  | c :: cs =>
    if c.isDigit then
      let p := splitDigits (c :: cs)
      match p.2.dropWhile isJsSpace with
      | '.' :: r3 =>
        match r3.dropWhile isJsSpace with
        | d1 :: d2 :: _ =>
          if d1.isDigit && d2.isDigit then
            some (natOfDigits p.1 * 100 + digitVal d1 * 10 + digitVal d2)
          else pat4 cs
        | _ => pat4 cs
      | _ => pat4 cs
    else pat4 cs

/-- The sanity bound on a parsed price: strictly between 0 and 50 dollars
(scraper.ts lines 71 and 74), in cents. -/
def priceInBound (p : Nat) : Bool := 0 < p && p < 5000

/-- scraper.ts extractPrice (lines 54 to 80), in cents.  Tries the four
patterns in order; a pattern that matches but violates the sanity bound is
skipped and the next pattern is tried; 0 is the no-price sentinel. -/
def extractPrice (priceText : String) : Nat :=
  let cl := cleanData priceText
  match ([pat1 cl, pat2 cl, pat3 cl, pat4 cl].filterMap id).find? priceInBound with
  | some p => p
  | none => 0


/-! ## Substring containment and case folding

JavaScript toLowerCase and String.prototype.includes, on the ASCII range.
We use our own boolean substring primitives so the development stays
self-contained. -/

/-- Boolean test that needle occurs at the head of hay. -/
def startsWithL : List Char → List Char → Bool
  | _, [] => true
  | [], _ :: _ => false
  | h :: hs, n :: ns => h = n && startsWithL hs ns

/-- Boolean test that needle occurs contiguously anywhere inside hay
(JavaScript includes). -/
def containsSub : List Char → List Char → Bool
  | [], needle => startsWithL [] needle
  | h :: t, needle => startsWithL (h :: t) needle || containsSub t needle

/-- JavaScript toLowerCase restricted to ASCII (every blocklist keyword and
comparison in the source is ASCII). -/
def lowerStr (s : String) : String := String.mk (s.data.map Char.toLower)

/-- String-level wrapper for containsSub. -/
def strContains (hay needle : String) : Bool := containsSub hay.data needle.data

/-- String-level wrapper for startsWithL (JavaScript startsWith). -/
def strStarts (s pre : String) : Bool := startsWithL s.data pre.data


/-! ## Data model (types.ts) -/

/-- types.ts MusicItem.  The optional album is an Option; the JavaScript
value undefined is none and a present string s is some s. -/
structure MusicItem where
  artist : String
  song : String
  album : Option String
deriving Repr, DecidableEq

/-- types.ts PriceInfo (the PriceObservation of the spec), prices in cents. -/
structure PriceInfo where
  artist : String
  song : String
  album : Option String
  trackPrice : Nat
  albumPrice : Option Nat
  albumName : Option String
  trackCount : Option Nat
  available : Bool
  searchQuery : String
  error : Option String
deriving Repr, DecidableEq

/-- The search query built at scraper.ts lines 87, 360 and 764: artist,
space, song, and a space plus the album exactly when the album is a truthy
(present and non-empty) string. -/
def mkSearchQuery (item : MusicItem) : String :=
  item.artist ++ " " ++ item.song ++
    (match item.album with
     | some a => if a = "" then "" else " " ++ a
     | none => "")

/-- The freshly initialised result record of scraper.ts lines 83 to 88
(and 356 to 361): zero price, unavailable, no error yet. -/
def initResult (item : MusicItem) : PriceInfo :=
  { artist := item.artist
    song := item.song
    album := item.album
    trackPrice := 0
    albumPrice := none
    albumName := none
    trackCount := none
    available := false
    searchQuery := mkSearchQuery item
    error := none }

/-! ## Candidate filter (scraper.ts lines 174 to 191 and 471 to 490) -/

/-- The fixed merchandise keyword blocklist, in source order.  Note that the
cd keyword carries a trailing space. -/
def merchandiseKeywords : List String :=
  ["poster", "print", "wall art", "t-shirt", "mug", "vinyl", "cd ", "dvd", "book"]

/-- The merchandise test: the lowercased title contains some blocklist word. -/
def isMerchandiseTitle (titleLower : String) : Bool :=
  merchandiseKeywords.any (fun k => strContains titleLower k)

/-- The candidate filter: the title must contain the song or the artist
case-insensitively, and must not look like merchandise. -/
def acceptCandidate (title : String) (item : MusicItem) : Bool :=
  let titleLower := lowerStr title
  let songMatch := strContains titleLower (lowerStr item.song)
  let artistMatch := strContains titleLower (lowerStr item.artist)
  (songMatch || artistMatch) && !(isMerchandiseTitle titleLower)


/-! ## Selector cascades (the configuration strings of scraper.ts) -/

/-- The primary search-result selector, used both for the result count of
the ResultsEvaluate step and as the first entry of resultSelectors. -/
def sSearchResultSelector : String := "[data-component-type=\"s-search-result\"]"

/-- scraper.ts lines 116 to 122 and 402 to 408. -/
def resultSelectors : List String :=
  [sSearchResultSelector,
   "[data-testid=\"result-info-container\"]",
   ".s-result-item",
   "[data-cy=\"title-recipe\"]",
   ".s-widget-container"]

/-- scraper.ts lines 146 to 154 and 439 to 447. -/
def titleSelectors : List String :=
  ["h2 a span",
   "h2 span",
   "h2 a",
   "[data-cy=\"title-recipe\"]",
   ".s-size-mini",
   ".a-size-base-plus",
   "a[href*=\"/dp/\"] span"]

/-- scraper.ts lines 195 to 200 and 493 to 498. -/
def linkSelectors : List String :=
  ["h2 a",
   "a[href*=\"/dp/\"]",
   "a[href*=\"/gp/\"]",
   ".a-link-normal"]

/-- scraper.ts lines 297 to 313 and 607 to 623. -/
def modalPriceSelectors : List String :=
  ["text*=\"Order total:\"",
   "text*=\"$\"",
   "[data-testid*=\"price\"]",
   ".order-total",
   ".price",
   ".total-price",
   "text*=\"Order total: $\"",
   "text=/\\$\\d+\\.\\d\x7b2\x7d/",
   ".a-price .a-offscreen",
   ".a-price-whole",
   "#order-total",
   "[aria-label*=\"total\"]"]

/-- scraper.ts lines 648 to 651 (only the sequential extractor reads these). -/
def albumSelectors : List String :=
  ["#tmm-grid-swatch-MUSIC_ALBUM .a-price .a-offscreen",
   "[data-a-button-group=\"album\"] .a-price .a-offscreen"]

/-! ## Page environment

An oracle for one browsing session.  Option-valued fields model reads whose
failure (element missing, timeout, thrown error) is swallowed by a local
catch in the source and simply moves the cascade along; Except-valued
fields model steps whose exception escapes to the per-item try/catch. -/

/-- One search-result element, as the title, link and fallback-text reads
see it.  A field value none means the read threw (absent element or
timeout) and the local catch advanced the cascade; a value some s is the
returned text after the source applies the or-empty-string default. -/
structure ResultEl where
  titleFor : String → Option String
  fullText : String
  linkFor : String → Option String

/-- One product page (everything after following a result link).
foundMenu abstracts the menu-interaction block (scraper.ts lines 225 to 294
and 529 to 600): every step of that block sits inside a per-selector catch,
and its only contribution to the returned record is whether a Buy-MP3
option was successfully clicked.  modalText gives, per modal price
selector, the visible text of the first matching element (none when the
element is missing, invisible, or the read threw).  albumText and
productTitle serve the album-price and album-name reads of the sequential
extractor only. -/
structure ProductPage where
  gotoResult : Except String Unit
  foundMenu : Bool
  modalText : String → Option String
  albumText : String → Option String
  productTitle : Option String

/-- The state of the search-results page: per result selector, the element
handles that locator all returns. -/
structure SearchPage where
  resultsFor : String → List ResultEl

/-- The whole browsing environment seen by one extraction. -/
structure Env where
  /-- Outcome of the initial search navigation (scraper.ts line 95);
  an error escapes to the per-item catch. -/
  searchGoto : Except String Unit
  /-- Whether the result-count read of the ResultsEvaluate step threw
  (scraper.ts line 101); the inner catch swallows it. -/
  countFault : Bool
  /-- Whether the refine re-navigation succeeded (scraper.ts line 106);
  its failure is swallowed by the inner catch. -/
  retryGotoOk : Bool
  /-- The search page reached by the initial navigation. -/
  afterMain : SearchPage
  /-- The search page reached by the refine re-navigation. -/
  afterRetry : SearchPage
  /-- The product page behind each product URL. -/
  product : String → ProductPage

/-- The ResultsEvaluate step (scraper.ts lines 99 to 113): count the
primary-selector results; on fewer than 3, re-navigate with the narrower
query; any fault inside leaves the session on the main page. -/
def currentSearchPage (env : Env) : SearchPage :=
  if env.countFault then env.afterMain
  else if (env.afterMain.resultsFor sSearchResultSelector).length < 3 then
    if env.retryGotoOk then env.afterRetry else env.afterMain
  else env.afterMain

/-- The result-selector cascade (scraper.ts lines 127 to 134): the first
selector returning at least one element wins. -/
def pickResults (sp : SearchPage) : List ResultEl :=
  match resultSelectors.find? (fun sel => !(sp.resultsFor sel).isEmpty) with
  | some sel => sp.resultsFor sel
  | none => []

/-- True when the string still has content after a JavaScript trim:
the truthiness test applied to title.trim() in the source. -/
def hasContent (s : String) : Bool := s.data.any (fun c => !isJsSpace c)

/-- The title cascade (scraper.ts lines 156 to 172): first selector whose
text read succeeds with non-whitespace content wins; otherwise the whole
element text is the fallback. -/
def titleOf (r : ResultEl) : String :=
  match (titleSelectors.filterMap r.titleFor).find? hasContent with
  | some t => t
  | none => r.fullText

/-- The link cascade (scraper.ts lines 202 to 213): first selector whose
href read succeeds with a non-empty value wins; empty string otherwise. -/
def linkOf (r : ResultEl) : String :=
  match (linkSelectors.filterMap r.linkFor).find? (fun h => h ≠ "") with
  | some h => h
  | none => ""

/-- scraper.ts line 219: resolve a relative href against the storefront. -/
def productUrlOf (href : String) : String :=
  if strStarts href "http" then href else "https://www.amazon.com" ++ href

/-- The modal price cascade (scraper.ts lines 315 to 333): per selector,
read the visible text, parse it, and stop at the first positive price. -/
def modalPriceOf (pp : ProductPage) : Option Nat :=
  ((modalPriceSelectors.filterMap pp.modalText).map extractPrice).find? (fun p => 0 < p)

/-- The album price loop of the sequential extractor (scraper.ts lines 646
to 668): every selector is tried, each positive parse overwrites the field,
so the last positive parse wins; none when no selector yields one. -/
def albumPriceOf (pp : ProductPage) : Option Nat :=
  (((albumSelectors.filterMap pp.albumText).map extractPrice).filter (fun p => 0 < p)).getLast?

/-- The album name read of the sequential extractor (scraper.ts lines 670
to 680): the product title, trimmed, when present and truthy. -/
def albumNameOf (pp : ProductPage) : Option String :=
  match pp.productTitle with
  | some t => if t = "" then none else some (String.mk (trimChars t.data))
  | none => none

/-- The record returned when the scan ends without a price
(scraper.ts lines 342 to 344 and 692 to 694). -/
def noPriceFound (item : MusicItem) : PriceInfo :=
  { initResult item with error := some "No MP3 price found for this track" }

/-- The record returned when no result selector matched anything
(scraper.ts lines 136 to 139 and 423 to 430). -/
def noResultsFound (item : MusicItem) : PriceInfo :=
  { initResult item with error := some "No search results found with any selector pattern" }

/-! ## The two per-item extractors -/

/-- The result-scan loop of searchForTrackWithPage (scraper.ts lines 142 to
340), one list entry per remaining result.  Skipped candidates recurse;
reaching a product page commits: a missing menu interaction or a priceless
modal breaks out of the scan (the session has navigated away), a positive
modal price returns the populated record. -/
def scanWithPage (item : MusicItem) (env : Env) : List ResultEl → Except String PriceInfo
  | [] => Except.ok (noPriceFound item)
  | r :: rs =>
    let title := titleOf r
    if acceptCandidate title item then
      let href := linkOf r
      if href = "" then scanWithPage item env rs
      else
        let pp := env.product (productUrlOf href)
        match pp.gotoResult with
        | Except.error e => Except.error e
        | Except.ok _ =>
          if pp.foundMenu then
            match modalPriceOf pp with
            | some p => Except.ok { initResult item with trackPrice := p, available := true }
            | none => Except.ok (noPriceFound item)
          else Except.ok (noPriceFound item)
    else scanWithPage item env rs

/-- scraper.ts searchForTrackWithPage (lines 82 to 351): the batch-mode
extractor.  Examines at most the first 3 results; any escaping exception is
caught and recorded on the result. -/
def searchForTrackWithPage (item : MusicItem) (env : Env) : PriceInfo :=
  let body : Except String PriceInfo :=
    match env.searchGoto with
    | Except.error e => Except.error e
    | Except.ok _ =>
      let results := pickResults (currentSearchPage env)
      if results.isEmpty then Except.ok (noResultsFound item)
      else scanWithPage item env (results.take 3)
  match body with
  | Except.ok r => r
  | Except.error msg => { initResult item with error := some ("Search failed: " ++ msg) }

/-- The result-scan loop of searchForTrack (scraper.ts lines 435 to 690).
Unlike the batch variant it proceeds to the price modal even when the menu
interaction found nothing, and on success it additionally records the album
price and album name. -/
def scanSequential (item : MusicItem) (env : Env) : List ResultEl → Except String PriceInfo
  | [] => Except.ok (noPriceFound item)
  | r :: rs =>
    let title := titleOf r
    if acceptCandidate title item then
      let href := linkOf r
      if href = "" then scanSequential item env rs
      else
        let pp := env.product (productUrlOf href)
        match pp.gotoResult with
        | Except.error e => Except.error e
        | Except.ok _ =>
          match modalPriceOf pp with
          | some p =>
            Except.ok { initResult item with
              trackPrice := p
              available := true
              albumPrice := albumPriceOf pp
              albumName := albumNameOf pp }
          | none => Except.ok (noPriceFound item)
    else scanSequential item env rs

/-- scraper.ts searchForTrack (lines 353 to 703): the sequential-mode
extractor.  Examines at most the first 5 results. -/
def searchForTrack (item : MusicItem) (env : Env) : PriceInfo :=
  let body : Except String PriceInfo :=
    match env.searchGoto with
    | Except.error e => Except.error e
    | Except.ok _ =>
      let results := pickResults (currentSearchPage env)
      if results.isEmpty then Except.ok (noResultsFound item)
      else scanSequential item env (results.take 5)
  match body with
  | Except.ok r => r
  | Except.error msg => { initResult item with error := some ("Search failed: " ++ msg) }

/-! ## Batch scheduler (scraper.ts lines 705 to 821) -/

/-- scraper.ts chunkArray (lines 795 to 801): slices of chunkSize
consecutive elements.  The source loop never terminates for chunkSize 0
(the index never advances), and it is only ever called with a positive
concurrency; the embedding returns the empty list on that dead input. -/
def chunkArray {a : Type} (array : List a) (chunkSize : Nat) : List (List a) :=
  if h : chunkSize = 0 then []
  else
    match array with
    | [] => []
    | x :: xs => (x :: xs).take chunkSize :: chunkArray ((x :: xs).drop chunkSize) chunkSize
termination_by array.length
decreasing_by
  simp only [List.length_drop, List.length_cons]
  omega

/-- The per-item boundary of the batch scheduler (scraper.ts lines 754 to
767): run the batch extractor; a fault of the task itself (an exception the
extractor call rejects with, modelled by the oracle field) is caught and
converted into a failure record carrying the same identity fields. -/
def runScheduledItem (item : MusicItem) (env : Env) (fault : Option String) : PriceInfo :=
  match fault with
  | some msg => { initResult item with error := some ("Parallel processing failed: " ++ msg) }
  | none => searchForTrackWithPage item env

/-- scraper.ts searchMultipleTracks (lines 705 to 793).  The item list is
chunked by the concurrency bound; chunks run strictly in order; inside a
chunk each member is assigned the session numbered by its intra-chunk index
modulo the pool size (the source creates min concurrency length sessions);
the per-chunk result arrays (Promise.all preserves the order of the promise
array, so each array is in intra-chunk order) are concatenated chunk-major.
The oracles are indexed by the global input position (first component of
the enumerated pairs) and by the assigned session: behavior g s is the
environment task g experiences on session s, and faultOf g is the fault the
task itself rejects with, when any. -/
def searchMultipleTracks (items : List MusicItem) (behavior : Nat → Nat → Env)
    (faultOf : Nat → Option String) (concurrency : Nat) : List PriceInfo :=
  let poolSize := min concurrency items.length
  ((chunkArray items.enum concurrency).map (fun chunk =>
    chunk.enum.map (fun q =>
      runScheduledItem q.2.2 (behavior q.2.1 (q.1 % poolSize)) (faultOf q.2.1)))).flatten

/-- scraper.ts searchMultipleTracksSequential (lines 803 to 821): one item
at a time through the sequential extractor, in input order; the inter-item
delay has no effect on the returned records. -/
def searchMultipleTracksSequential (items : List MusicItem) (behavior : Nat → Env) :
    List PriceInfo :=
  items.enum.map (fun q => searchForTrack q.2 (behavior q.1))

/-! ## Pricing optimizer (album analysis)

The repository imports a PricingAnalyzer from analyzer.ts, but that file is
not part of the sources here; only its caller (index.ts) and its record
types (types.ts) are.  The album-analysis pass is therefore modelled from
the specification. -/

/-- types.ts AlbumAnalysis, prices in cents; savings may be negative. -/
structure AlbumAnalysis where
  albumName : String
  artist : String
  albumPrice : Nat
  tracks : List String
  trackCount : Nat
  totalTrackPrice : Nat
  savings : Int
  recommendation : String
deriving Repr, DecidableEq

/-- Modelled from the spec: the grouping step of the Pricing Optimizer
(analyzer.ts is absent from src).  Partition the available observations
that carry a positive album price, keyed by artist and album name. -/
def qualifyingObs (obs : List PriceInfo) : List PriceInfo :=
  obs.filter (fun o => o.available && o.albumName.isSome && 0 < o.albumPrice.getD 0)

/-- Modelled from the spec: the distinct (artist, albumName) keys of the
qualifying observations, in first-appearance order. -/
def albumKeys (obs : List PriceInfo) : List (String × String) :=
  ((qualifyingObs obs).map (fun o => (o.artist, o.albumName.getD ""))).dedup

/-- Modelled from the spec: the members of one (artist, albumName) group. -/
def albumGroup (obs : List PriceInfo) (k : String × String) : List PriceInfo :=
  (qualifyingObs obs).filter (fun o => o.artist = k.1 && o.albumName.getD "" = k.2)

/-- Modelled from the spec: the AlbumAnalysis built for one qualifying
group of at least three members: the sum of the member track prices, the
savings as that sum minus the group album price, and a recommendation that
names the dollar savings when positive and says to buy individual tracks
otherwise. -/
def mkAlbumAnalysis (k : String × String) (members : List PriceInfo) : AlbumAnalysis :=
  let albumPrice : Nat := (members.head?.map (fun o => o.albumPrice.getD 0)).getD 0
  let total : Nat := (members.map (fun o => o.trackPrice)).sum
  let savings : Int := (total : Int) - (albumPrice : Int)
  { albumName := k.2
    artist := k.1
    albumPrice := albumPrice
    tracks := members.map (fun o => o.song)
    trackCount := (members.map (fun o => o.song)).length
    totalTrackPrice := total
    savings := savings
    recommendation :=
      if 0 < savings then
        "Buy album " ++ k.2 ++ " and save " ++ toString savings ++ " cents"
      else "Buy individual tracks" }

/-- Modelled from the spec: the album-analysis pass of the Pricing
Optimizer.  Each (artist, albumName) group with at least 3 members emits
one AlbumAnalysis; smaller groups emit nothing. -/
def analyzeAlbums (obs : List PriceInfo) : List AlbumAnalysis :=
  (albumKeys obs).filterMap (fun k =>
    if 3 ≤ (albumGroup obs k).length then some (mkAlbumAnalysis k (albumGroup obs k))
    else none)

/-! ## Concrete data for counterexamples and witnesses -/

/-- A minimal offline environment: the initial navigation fails. -/
def trivEnv : Env :=
  { searchGoto := Except.error "offline"
    countFault := false
    retryGotoOk := false
    afterMain := ⟨fun _ => []⟩
    afterRetry := ⟨fun _ => []⟩
    product := fun _ =>
      { gotoResult := Except.error "offline"
        foundMenu := false
        modalText := fun _ => none
        albumText := fun _ => none
        productTitle := none } }

/-- The environment with every search-result list cut to its first n
elements (the pages are otherwise unchanged). -/
def truncateResults (env : Env) (n : Nat) : Env :=
  { env with
    afterMain := ⟨fun s => (env.afterMain.resultsFor s).take n⟩
    afterRetry := ⟨fun s => (env.afterRetry.resultsFor s).take n⟩ }

/-- The Queen item used in concrete extractor runs. -/
def cexItem : MusicItem := ⟨"Queen", "Bohemian Rhapsody", none⟩

/-- A single matching search result pointing at one product page. -/
def cexResult : ResultEl :=
  { titleFor := fun _ => some "Bohemian Rhapsody"
    fullText := ""
    linkFor := fun _ => some "/dp/X" }

/-- A product page whose purchase-menu interaction finds nothing but whose
purchase modal displays a price. -/
def cexProduct : ProductPage :=
  { gotoResult := Except.ok ()
    foundMenu := false
    modalText := fun _ => some "$1.29"
    albumText := fun _ => none
    productTitle := none }

/-- The environment separating the two extractors: menu interaction fails,
modal shows 1.29 dollars. -/
def cexEnv : Env :=
  { searchGoto := Except.ok ()
    countFault := true
    retryGotoOk := false
    afterMain := ⟨fun _ => [cexResult]⟩
    afterRetry := ⟨fun _ => []⟩
    product := fun _ => cexProduct }

/-- The counterexample product page with the menu interaction succeeding. -/
def menuProduct : ProductPage :=
  { gotoResult := Except.ok ()
    foundMenu := true
    modalText := fun _ => some "$1.29"
    albumText := fun _ => none
    productTitle := none }

/-- The counterexample environment with every menu interaction succeeding. -/
def menuEnv : Env :=
  { searchGoto := Except.ok ()
    countFault := true
    retryGotoOk := false
    afterMain := ⟨fun _ => [cexResult]⟩
    afterRetry := ⟨fun _ => []⟩
    product := fun _ => menuProduct }

/-- Three available observations of one album used as concrete optimizer
input: album X by artist A at 7.99 dollars, three tracks at 1.29. -/
def obsW : List PriceInfo :=
  [{ artist := "A", song := "s1", album := none, trackPrice := 129, albumPrice := some 799,
     albumName := some "X", trackCount := none, available := true, searchQuery := "A s1",
     error := none },
   { artist := "A", song := "s2", album := none, trackPrice := 129, albumPrice := some 799,
     albumName := some "X", trackCount := none, available := true, searchQuery := "A s2",
     error := none },
   { artist := "A", song := "s3", album := none, trackPrice := 129, albumPrice := some 799,
     albumName := some "X", trackCount := none, available := true, searchQuery := "A s3",
     error := none }]

/-- The analysis produced for the group of obsW. -/
def analysisW : AlbumAnalysis := mkAlbumAnalysis ("A", "X") (albumGroup obsW ("A", "X"))

/-! ## Basic facts about the string primitives and the price parser -/

example : extractPrice "$1.29" = 129 := by decide
example : extractPrice "Order total: $12.50 due" = 1250 := by decide
example : extractPrice "$75.00" = 0 := by decide
example : extractPrice "no digits here" = 0 := by decide
example : extractPrice "1 . 29" = 129 := by decide
example : extractPrice "$3" = 300 := by decide

example :
    acceptCandidate "Queen Bohemian Rhapsody Poster Wall Art"
      ⟨"Queen", "Bohemian Rhapsody", none⟩ = false := by decide
example :
    acceptCandidate "Bohemian Rhapsody (Remastered)"
      ⟨"Queen", "Bohemian Rhapsody", none⟩ = true := by decide

theorem startsWithL_iff (hay needle : List Char) :
    startsWithL hay needle = true ↔ ∃ t, hay = needle ++ t := by
  induction needle generalizing hay with
  | nil => simp [startsWithL]
  | cons n ns ih =>
    cases hay with
    | nil => simp [startsWithL]
    | cons h hs =>
      simp only [startsWithL, Bool.and_eq_true, decide_eq_true_eq, ih, List.cons_append,
        List.cons.injEq]
      constructor
      · rintro ⟨rfl, t, rfl⟩; exact ⟨t, rfl, rfl⟩
      · rintro ⟨t, rfl, rfl⟩; exact ⟨rfl, t, rfl⟩

theorem containsSub_iff (hay needle : List Char) :
    containsSub hay needle = true ↔ ∃ pre post, hay = pre ++ needle ++ post := by
  induction hay with
  | nil =>
    simp only [containsSub, startsWithL_iff]
    constructor
    · rintro ⟨t, ht⟩; exact ⟨[], t, ht⟩
    · rintro ⟨pre, post, h⟩
      rcases List.append_eq_nil.mp (List.append_eq_nil.mp h.symm).1 with ⟨h1, h2⟩
      exact ⟨[], by simp [h2]⟩
  | cons h t ih =>
    simp only [containsSub, Bool.or_eq_true, startsWithL_iff, ih]
    constructor
    · rintro (⟨u, hu⟩ | ⟨pre, post, hp⟩)
      · exact ⟨[], u, by simp [hu]⟩
      · exact ⟨h :: pre, post, by simp [hp]⟩
    · rintro ⟨pre, post, hp⟩
      cases pre with
      | nil => exact Or.inl ⟨post, by simpa using hp⟩
      | cons p ps =>
        right
        have hp' : h :: t = p :: (ps ++ needle ++ post) := by simpa using hp
        exact ⟨ps, post, (List.cons.injEq _ _ _ _ ▸ hp').2⟩

/-! ## Lemmas about chunkArray -/

theorem chunkArray_nil {a : Type} (c : Nat) : chunkArray ([] : List a) c = [] := by
  unfold chunkArray; split <;> rfl

theorem chunkArray_cons {a : Type} (l : List a) (c : Nat) (hc : c ≠ 0) (hl : l ≠ []) :
    chunkArray l c = l.take c :: chunkArray (l.drop c) c := by
  cases l with
  | nil => exact absurd rfl hl
  | cons x xs =>
    conv_lhs => unfold chunkArray
    simp [hc]

theorem chunkArray_flatten {a : Type} (l : List a) (c : Nat) :
    c ≠ 0 → (chunkArray l c).flatten = l := by
  induction l, c using chunkArray.induct with
  | case1 arr => intro hc; exact absurd rfl hc
  | case2 c hc0 => intro _; rw [chunkArray_nil]; rfl
  | case3 c hc0 x xs ih =>
    intro _
    rw [chunkArray_cons _ _ hc0 (by simp), List.flatten_cons, ih hc0, List.take_append_drop]

theorem chunkArray_length {a : Type} (l : List a) (c : Nat) :
    c ≠ 0 → (chunkArray l c).length = (l.length + c - 1) / c := by
  induction l, c using chunkArray.induct with
  | case1 arr => intro hc; exact absurd rfl hc
  | case2 c hc0 =>
    intro _
    rw [chunkArray_nil]
    have h0 : (c - 1) / c = 0 := Nat.div_eq_of_lt (by omega)
    simp [h0]
  | case3 c hc0 x xs ih =>
    intro _
    have hpos : 0 < c := Nat.pos_of_ne_zero hc0
    rw [chunkArray_cons _ _ hc0 (by simp), List.length_cons, ih hc0, List.length_drop,
      List.length_cons]
    set m := xs.length with hm
    by_cases hmc : m + 1 ≤ c
    · have e1 : m + 1 - c + c - 1 = c - 1 := by omega
      have e2 : m + 1 + c - 1 = m + c := by omega
      rw [e1, e2, Nat.add_div_right _ hpos,
        Nat.div_eq_of_lt (show c - 1 < c by omega),
        Nat.div_eq_of_lt (show m < c by omega)]
    · have e1 : m + 1 - c + c - 1 = (m - c) + c := by omega
      have e2 : m + 1 + c - 1 = ((m - c) + c) + c := by omega
      rw [e1, e2, Nat.add_div_right _ hpos, Nat.add_div_right _ hpos, Nat.add_div_right _ hpos]

theorem chunkArray_getElem {a : Type} (l : List a) (c : Nat) :
    c ≠ 0 → ∀ i, i < (chunkArray l c).length →
      (chunkArray l c)[i]? = some ((l.drop (i * c)).take c) := by
  induction l, c using chunkArray.induct with
  | case1 arr => intro hc; exact absurd rfl hc
  | case2 c hc0 =>
    intro _ i hi
    rw [chunkArray_nil] at hi
    simp at hi
  | case3 c hc0 x xs ih =>
    intro _ i hi
    rw [chunkArray_cons _ _ hc0 (by simp)] at hi ⊢
    cases i with
    | zero => simp
    | succ j =>
      simp only [List.length_cons, Nat.succ_lt_succ_iff] at hi
      have := ih hc0 j hi
      simp only [List.getElem?_cons_succ, this, List.drop_drop, Option.some.injEq]
      have harith : c + j * c = (j + 1) * c := by ring
      rw [harith]

/-! ## Lemmas about the batch scheduler -/

theorem enumFrom_map_mod {b g2 : Type} (g : Nat → b → g2) (c : Nat) :
    ∀ (xs : List b) (n : Nat),
      (xs.enumFrom (n + c)).map (fun q => g (q.1 % c) q.2)
        = (xs.enumFrom n).map (fun q => g (q.1 % c) q.2) := by
  intro xs
  induction xs with
  | nil => intro n; rfl
  | cons x xs ih =>
    intro n
    have e : n + c + 1 = (n + 1) + c := by omega
    simp only [List.enumFrom_cons, List.map_cons, Nat.add_mod_right, e, ih]

theorem enum_enum {b : Type} (l : List b) :
    l.enum.enum = l.enum.map (fun q => (q.1, q)) := by
  suffices h : ∀ (l : List b) (n : Nat),
      (l.enumFrom n).enumFrom n = (l.enumFrom n).map (fun q => (q.1, q)) by
    exact h l 0
  intro l
  induction l with
  | nil => intro n; rfl
  | cons x xs ih => intro n; simp [List.enumFrom_cons, ih (n + 1)]

theorem flatten_chunk_enum_map {b g2 : Type} (c : Nat) (g : Nat → b → g2) (l : List b) :
    c ≠ 0 →
    ((chunkArray l c).map (fun ch => ch.enum.map (fun q => g q.1 q.2))).flatten
      = l.enum.map (fun q => g (q.1 % c) q.2) := by
  induction l, c using chunkArray.induct with
  | case1 arr => intro hc; exact absurd rfl hc
  | case2 c hc0 => intro _; rw [chunkArray_nil]; rfl
  | case3 c hc0 x xs ih =>
    intro _
    set l := x :: xs with hl
    rw [chunkArray_cons _ _ hc0 (by simp), List.map_cons, List.flatten_cons, ih hc0]
    have hsplit : l.enum = (l.take c).enum ++ ((l.drop c).enumFrom (l.take c).length) := by
      conv_lhs => rw [show l.enum = l.enumFrom 0 from rfl,
        show l = l.take c ++ l.drop c from (List.take_append_drop c l).symm]
      rw [List.enumFrom_append, Nat.zero_add]
      rfl
    rw [hsplit, List.map_append]
    congr 1
    · apply List.map_congr_left
      intro q hq
      have hlt : q.1 < (l.take c).length := List.fst_lt_of_mem_enum hq
      have hlc : q.1 < c := lt_of_lt_of_le hlt (by simp [List.length_take])
      simp [Nat.mod_eq_of_lt hlc]
    · by_cases hcase : l.length ≤ c
      · have : l.drop c = [] := List.drop_eq_nil_of_le hcase
        simp [this]
      · have hlen : (l.take c).length = c := by
          rw [List.length_take]; omega
        rw [hlen]
        have h2 := enumFrom_map_mod g c (l.drop c) 0
        rw [Nat.zero_add] at h2
        exact h2.symm

/-- Pointwise description of the batch scheduler: chunk-major flattening of
intra-chunk-ordered results restores global input order, with the session
assignment determined by the position. -/
theorem searchMultipleTracks_eq (items : List MusicItem) (b : Nat → Nat → Env)
    (f : Nat → Option String) (c : Nat) (hc : c ≠ 0) :
    searchMultipleTracks items b f c
      = items.enum.map (fun q =>
          runScheduledItem q.2 (b q.1 ((q.1 % c) % min c items.length)) (f q.1)) := by
  unfold searchMultipleTracks
  rw [flatten_chunk_enum_map c
    (fun j p => runScheduledItem p.2 (b p.1 (j % min c items.length)) (f p.1))
    items.enum hc]
  rw [enum_enum, List.map_map]
  rfl

theorem searchMultipleTracks_length (items : List MusicItem) (b : Nat → Nat → Env)
    (f : Nat → Option String) (c : Nat) (hc : c ≠ 0) :
    (searchMultipleTracks items b f c).length = items.length := by
  rw [searchMultipleTracks_eq items b f c hc]
  simp [List.enum_length]

theorem searchMultipleTracks_getElem (items : List MusicItem) (b : Nat → Nat → Env)
    (f : Nat → Option String) (c : Nat) (hc : c ≠ 0) (i : Nat) :
    (searchMultipleTracks items b f c)[i]?
      = items[i]?.map (fun it =>
          runScheduledItem it (b i ((i % c) % min c items.length)) (f i)) := by
  rw [searchMultipleTracks_eq items b f c hc, List.getElem?_map, List.getElem?_enum]
  cases items[i]? <;> rfl

/-! ## Lemmas about the extractors -/

theorem modalPriceOf_pos (pp : ProductPage) (p : Nat) (h : modalPriceOf pp = some p) :
    0 < p := by
  simpa using List.find?_some h

theorem str_append_ne (s t : String) (h : s.data ≠ []) : s ++ t ≠ "" := by
  intro hc
  apply h
  have hd := congrArg String.data hc
  rw [String.data_append] at hd
  have hnil : ("" : String).data = [] := rfl
  rw [hnil] at hd
  exact (List.append_eq_nil.mp hd).1

/-- Every value the batch scan can return without throwing: either the
no-price record or a populated success record with a positive price. -/
theorem scanWithPage_ok (item : MusicItem) (env : Env) :
    ∀ (l : List ResultEl) (r : PriceInfo), scanWithPage item env l = Except.ok r →
      r = noPriceFound item ∨
        ∃ p, 0 < p ∧ r = { initResult item with trackPrice := p, available := true } := by
  intro l
  induction l with
  | nil =>
    intro r hr
    simp only [scanWithPage, Except.ok.injEq] at hr
    exact Or.inl hr.symm
  | cons a rs ih =>
    intro r hr
    simp only [scanWithPage] at hr
    split at hr
    · split at hr
      · exact ih r hr
      · split at hr
        · exact absurd hr (by simp)
        · split at hr
          · split at hr
            · rename_i p hp
              refine Or.inr ⟨p, modalPriceOf_pos _ p hp, ?_⟩
              simpa using hr.symm
            · simp only [Except.ok.injEq] at hr
              exact Or.inl hr.symm
          · simp only [Except.ok.injEq] at hr
            exact Or.inl hr.symm
    · exact ih r hr

/-- Every value the sequential scan can return without throwing. -/
theorem scanSequential_ok (item : MusicItem) (env : Env) :
    ∀ (l : List ResultEl) (r : PriceInfo), scanSequential item env l = Except.ok r →
      r = noPriceFound item ∨
        ∃ p ap an, 0 < p ∧ r = { initResult item with
          trackPrice := p, available := true, albumPrice := ap, albumName := an } := by
  intro l
  induction l with
  | nil =>
    intro r hr
    simp only [scanSequential, Except.ok.injEq] at hr
    exact Or.inl hr.symm
  | cons a rs ih =>
    intro r hr
    simp only [scanSequential] at hr
    split at hr
    · split at hr
      · exact ih r hr
      · split at hr
        · exact absurd hr (by simp)
        · split at hr
          · rename_i p hp
            refine Or.inr ⟨p, albumPriceOf (env.product (productUrlOf (linkOf a))),
              albumNameOf (env.product (productUrlOf (linkOf a))),
              modalPriceOf_pos _ p hp, ?_⟩
            simpa using hr.symm
          · simp only [Except.ok.injEq] at hr
            exact Or.inl hr.symm
    · exact ih r hr

/-- The four shapes a batch-extractor result can take. -/
theorem searchForTrackWithPage_cases (item : MusicItem) (env : Env) :
    searchForTrackWithPage item env = noResultsFound item ∨
    searchForTrackWithPage item env = noPriceFound item ∨
    (∃ p, 0 < p ∧ searchForTrackWithPage item env
        = { initResult item with trackPrice := p, available := true }) ∨
    (∃ msg, searchForTrackWithPage item env
        = { initResult item with error := some ("Search failed: " ++ msg) }) := by
  unfold searchForTrackWithPage
  cases hg : env.searchGoto with
  | error e =>
    right; right; right
    exact ⟨e, rfl⟩
  | ok u =>
    by_cases he : (pickResults (currentSearchPage env)).isEmpty
    · left; simp [he]
    · simp only [he, Bool.false_eq_true, if_false]
      cases hs : scanWithPage item env ((pickResults (currentSearchPage env)).take 3) with
      | error e =>
        right; right; right
        exact ⟨e, rfl⟩
      | ok r =>
        rcases scanWithPage_ok item env _ r hs with h1 | ⟨p, hp, h2⟩
        · right; left; simp [h1]
        · right; right; left; exact ⟨p, hp, by simp [h2]⟩

/-- The four shapes a sequential-extractor result can take. -/
theorem searchForTrack_cases (item : MusicItem) (env : Env) :
    searchForTrack item env = noResultsFound item ∨
    searchForTrack item env = noPriceFound item ∨
    (∃ p ap an, 0 < p ∧ searchForTrack item env = { initResult item with
        trackPrice := p, available := true, albumPrice := ap, albumName := an }) ∨
    (∃ msg, searchForTrack item env
        = { initResult item with error := some ("Search failed: " ++ msg) }) := by
  unfold searchForTrack
  cases hg : env.searchGoto with
  | error e =>
    right; right; right
    exact ⟨e, rfl⟩
  | ok u =>
    by_cases he : (pickResults (currentSearchPage env)).isEmpty
    · left; simp [he]
    · simp only [he, Bool.false_eq_true, if_false]
      cases hs : scanSequential item env ((pickResults (currentSearchPage env)).take 5) with
      | error e =>
        right; right; right
        exact ⟨e, rfl⟩
      | ok r =>
        rcases scanSequential_ok item env _ r hs with h1 | ⟨p, ap, an, hp, h2⟩
        · right; left; simp [h1]
        · right; right; left; exact ⟨p, ap, an, hp, by simp [h2]⟩

/-! ## Claim theorems -/

/-- Claim C1: for every input item and page environment, the observation
returned by either extractor has available true exactly when a positive
trackPrice was extracted (and the price is 0 otherwise), and whenever
available is false the error field holds a non-empty diagnostic string. -/
theorem c1_extractor_availability (item : MusicItem) (env : Env) :
    ((searchForTrackWithPage item env).available = true
        ∧ 0 < (searchForTrackWithPage item env).trackPrice
      ∨ (searchForTrackWithPage item env).available = false
        ∧ (searchForTrackWithPage item env).trackPrice = 0
        ∧ ∃ e, (searchForTrackWithPage item env).error = some e ∧ e ≠ "") ∧
    ((searchForTrack item env).available = true
        ∧ 0 < (searchForTrack item env).trackPrice
      ∨ (searchForTrack item env).available = false
        ∧ (searchForTrack item env).trackPrice = 0
        ∧ ∃ e, (searchForTrack item env).error = some e ∧ e ≠ "") := by
  constructor
  · rcases searchForTrackWithPage_cases item env with h | h | ⟨p, hp, h⟩ | ⟨msg, h⟩ <;> rw [h]
    · exact Or.inr ⟨rfl, rfl, _, rfl, by decide⟩
    · exact Or.inr ⟨rfl, rfl, _, rfl, by decide⟩
    · exact Or.inl ⟨rfl, hp⟩
    · exact Or.inr ⟨rfl, rfl, _, rfl, str_append_ne _ _ (by decide)⟩
  · rcases searchForTrack_cases item env with h | h | ⟨p, ap, an, hp, h⟩ | ⟨msg, h⟩ <;> rw [h]
    · exact Or.inr ⟨rfl, rfl, _, rfl, by decide⟩
    · exact Or.inr ⟨rfl, rfl, _, rfl, by decide⟩
    · exact Or.inl ⟨rfl, hp⟩
    · exact Or.inr ⟨rfl, rfl, _, rfl, str_append_ne _ _ (by decide)⟩

/-- Claim C3: the price parser on its four documented inputs (in cents),
and the sanity-bound guarantee that every extracted price is either the 0
sentinel or strictly between 0 and 50 dollars. -/
theorem c3_extractPrice_spec :
    extractPrice "$1.29" = 129 ∧
    extractPrice "Order total: $12.50 due" = 1250 ∧
    extractPrice "$75.00" = 0 ∧
    extractPrice "no digits here" = 0 ∧
    ∀ s, extractPrice s = 0 ∨ (0 < extractPrice s ∧ extractPrice s < 5000) := by
  refine ⟨by decide, by decide, by decide, by decide, ?_⟩
  intro s
  unfold extractPrice
  cases hf : (([pat1 (cleanData s), pat2 (cleanData s), pat3 (cleanData s),
      pat4 (cleanData s)].filterMap id).find? priceInBound) with
  | none => left; simp [hf]
  | some p =>
    right
    have hp := List.find?_some hf
    simp only [priceInBound, Bool.and_eq_true, decide_eq_true_eq] at hp
    simpa [hf] using hp

/-- Claim C5: for every list and chunk size at least 1, chunkArray yields
ceil of length over size many chunks, their concatenation is exactly the
input (so every item lands in exactly one chunk, in order), and chunk i is
the slice from i times size of length at most size. -/
theorem c5_chunkArray_spec {α : Type} (l : List α) (c : Nat) (hc : 1 ≤ c) :
    (chunkArray l c).length = (l.length + c - 1) / c ∧
    (chunkArray l c).flatten = l ∧
    ∀ i, i < (chunkArray l c).length →
      (chunkArray l c)[i]? = some ((l.drop (i * c)).take c) :=
  ⟨chunkArray_length l c (by omega), chunkArray_flatten l c (by omega),
   chunkArray_getElem l c (by omega)⟩

/-- Witness for c5_chunkArray_spec at a 5-element list with chunk size 2. -/
theorem c5_chunkArray_spec_witness :
    (chunkArray [0, 1, 2, 3, 4] 2).length = (([0, 1, 2, 3, 4] : List Nat).length + 2 - 1) / 2 ∧
    (chunkArray [0, 1, 2, 3, 4] 2).flatten = ([0, 1, 2, 3, 4] : List Nat) ∧
    ∀ i, i < (chunkArray ([0, 1, 2, 3, 4] : List Nat) 2).length →
      (chunkArray ([0, 1, 2, 3, 4] : List Nat) 2)[i]?
        = some ((([0, 1, 2, 3, 4] : List Nat).drop (i * 2)).take 2) :=
  c5_chunkArray_spec [0, 1, 2, 3, 4] 2 (by decide)

/-- Claim C6: for every item list and concurrency at least 1, the batch
scheduler returns exactly one observation per input item, and the
chunk-major flattening of the intra-chunk-ordered result arrays places at
global position i exactly the record of item i, extracted on the session
numbered by its intra-chunk index modulo the pool size. -/
theorem c6_scheduler_order (items : List MusicItem) (b : Nat → Nat → Env)
    (f : Nat → Option String) (c : Nat) (hc : 1 ≤ c) :
    (searchMultipleTracks items b f c).length = items.length ∧
    ∀ i, (searchMultipleTracks items b f c)[i]?
        = items[i]?.map (fun it =>
            runScheduledItem it (b i ((i % c) % min c items.length)) (f i)) :=
  ⟨searchMultipleTracks_length items b f c (by omega),
   fun i => searchMultipleTracks_getElem items b f c (by omega) i⟩


/-- Witness for c6_scheduler_order on a two-item list with concurrency 1. -/
theorem c6_scheduler_order_witness :
    (searchMultipleTracks [⟨"a", "s", none⟩, ⟨"b", "t", none⟩]
        (fun _ _ => trivEnv) (fun _ => some "boom") 1).length
      = ([⟨"a", "s", none⟩, ⟨"b", "t", none⟩] : List MusicItem).length ∧
    ∀ i, (searchMultipleTracks [⟨"a", "s", none⟩, ⟨"b", "t", none⟩]
          (fun _ _ => trivEnv) (fun _ => some "boom") 1)[i]?
        = ([⟨"a", "s", none⟩, ⟨"b", "t", none⟩] : List MusicItem)[i]?.map (fun it =>
            runScheduledItem it ((fun _ _ => trivEnv) i ((i % 1) %
              min 1 ([⟨"a", "s", none⟩, ⟨"b", "t", none⟩] : List MusicItem).length))
              ((fun _ => some "boom") i)) :=
  c6_scheduler_order [⟨"a", "s", none⟩, ⟨"b", "t", none⟩]
    (fun _ _ => trivEnv) (fun _ => some "boom") 1 (by decide)

/-- Claim C2: with concurrency at least 1, the batch scheduler still yields
one observation per input item whatever the faults are; the task whose
extraction rejects at position i is converted at the item boundary into the
failure record (available false, non-empty descriptive error); and changing
the behaviour or fault of position i leaves the observation of every other
position unchanged. -/
theorem c2_fault_isolation (items : List MusicItem) (b : Nat → Nat → Env)
    (f : Nat → Option String) (c : Nat) (hc : 1 ≤ c) :
    (searchMultipleTracks items b f c).length = items.length ∧
    (∀ i it msg, items[i]? = some it → f i = some msg →
      ∃ r, (searchMultipleTracks items b f c)[i]? = some r ∧
        r = { initResult it with error := some ("Parallel processing failed: " ++ msg) } ∧
        r.available = false ∧ ∃ e, r.error = some e ∧ e ≠ "") ∧
    (∀ i (b2 : Nat → Nat → Env) (f2 : Nat → Option String),
      (∀ j, j ≠ i → b2 j = b j) → (∀ j, j ≠ i → f2 j = f j) →
      ∀ j, j ≠ i → (searchMultipleTracks items b2 f2 c)[j]?
          = (searchMultipleTracks items b f c)[j]?) := by
  have hc0 : c ≠ 0 := by omega
  refine ⟨searchMultipleTracks_length items b f c hc0, ?_, ?_⟩
  · intro i it msg hit hf
    refine ⟨{ initResult it with error := some ("Parallel processing failed: " ++ msg) },
      ?_, rfl, rfl, _, rfl, str_append_ne _ _ (by decide)⟩
    rw [searchMultipleTracks_getElem items b f c hc0 i, hit]
    simp [runScheduledItem, hf]
  · intro i b2 f2 hb hf j hj
    rw [searchMultipleTracks_getElem items b f c hc0 j,
      searchMultipleTracks_getElem items b2 f2 c hc0 j, hb j hj, hf j hj]

/-- Witness for c2_fault_isolation on a two-item list with concurrency 2. -/
theorem c2_fault_isolation_witness :
    (searchMultipleTracks [⟨"a", "s", none⟩, ⟨"b", "t", none⟩]
        (fun _ _ => trivEnv) (fun i => if i = 0 then some "boom" else none) 2).length
      = ([⟨"a", "s", none⟩, ⟨"b", "t", none⟩] : List MusicItem).length ∧
    (∀ i it msg, ([⟨"a", "s", none⟩, ⟨"b", "t", none⟩] : List MusicItem)[i]? = some it →
      (if i = 0 then some "boom" else none) = some msg →
      ∃ r, (searchMultipleTracks [⟨"a", "s", none⟩, ⟨"b", "t", none⟩]
          (fun _ _ => trivEnv) (fun i => if i = 0 then some "boom" else none) 2)[i]? = some r ∧
        r = { initResult it with error := some ("Parallel processing failed: " ++ msg) } ∧
        r.available = false ∧ ∃ e, r.error = some e ∧ e ≠ "") ∧
    (∀ i (b2 : Nat → Nat → Env) (f2 : Nat → Option String),
      (∀ j, j ≠ i → b2 j = (fun _ _ => trivEnv) j) →
      (∀ j, j ≠ i → f2 j = (fun i => if i = 0 then some "boom" else none) j) →
      ∀ j, j ≠ i → (searchMultipleTracks [⟨"a", "s", none⟩, ⟨"b", "t", none⟩] b2 f2 2)[j]?
          = (searchMultipleTracks [⟨"a", "s", none⟩, ⟨"b", "t", none⟩]
              (fun _ _ => trivEnv) (fun i => if i = 0 then some "boom" else none) 2)[j]?) :=
  c2_fault_isolation [⟨"a", "s", none⟩, ⟨"b", "t", none⟩]
    (fun _ _ => trivEnv) (fun i => if i = 0 then some "boom" else none) 2 (by decide)

/-- Claim C4: the candidate filter accepts a label exactly when the
lowercased label contains the lowercased song or artist as a contiguous
substring and contains no merchandise keyword from the fixed blocklist; the
poster label is rejected and the remaster label is accepted for the Queen
item. -/
theorem c4_candidate_filter :
    (∀ (title : String) (item : MusicItem),
      acceptCandidate title item = true ↔
        ((∃ pre post, (lowerStr title).data = pre ++ (lowerStr item.song).data ++ post) ∨
         (∃ pre post, (lowerStr title).data = pre ++ (lowerStr item.artist).data ++ post)) ∧
        ∀ k ∈ merchandiseKeywords,
          ¬ ∃ pre post, (lowerStr title).data = pre ++ k.data ++ post) ∧
    acceptCandidate "Queen Bohemian Rhapsody Poster Wall Art"
      ⟨"Queen", "Bohemian Rhapsody", none⟩ = false ∧
    acceptCandidate "Bohemian Rhapsody (Remastered)"
      ⟨"Queen", "Bohemian Rhapsody", none⟩ = true := by
  refine ⟨?_, by decide, by decide⟩
  intro title item
  unfold acceptCandidate isMerchandiseTitle strContains
  simp only [Bool.and_eq_true, Bool.or_eq_true, Bool.not_eq_true', List.any_eq_false,
    containsSub_iff]


theorem find?_congr_local {α : Type} (p q : α → Bool) (l : List α)
    (h : ∀ x ∈ l, p x = q x) : l.find? p = l.find? q := by
  induction l with
  | nil => rfl
  | cons a l ih =>
    simp only [List.find?_cons]
    rw [h a (by simp)]
    cases hqa : q a
    · simpa [hqa] using ih (fun x hx => h x (List.mem_cons_of_mem _ hx))
    · simp [hqa]

theorem isEmpty_take_eq {α : Type} (l : List α) (n : Nat) (hn : n ≠ 0) :
    (l.take n).isEmpty = l.isEmpty := by
  cases l with
  | nil => simp
  | cons a t =>
    cases n with
    | zero => exact absurd rfl hn
    | succ m => simp

theorem pickResults_truncate (f : String → List ResultEl) (n : Nat) (hn : n ≠ 0) :
    pickResults ⟨fun s => (f s).take n⟩ = (pickResults ⟨f⟩).take n := by
  simp only [pickResults]
  rw [find?_congr_local (fun sel => !((f sel).take n).isEmpty)
    (fun sel => !(f sel).isEmpty) resultSelectors
    (fun sel _ => by simp [isEmpty_take_eq _ n hn])]
  cases hfind : resultSelectors.find? (fun sel => !(f sel).isEmpty) with
  | none => simp
  | some sel => simp

theorem currentSearchPage_truncate (env : Env) (n : Nat) (h3 : 3 ≤ n) :
    currentSearchPage (truncateResults env n)
      = ⟨fun s => ((currentSearchPage env).resultsFor s).take n⟩ := by
  unfold currentSearchPage truncateResults
  have hlen : ((env.afterMain.resultsFor sSearchResultSelector).take n).length < 3
      ↔ (env.afterMain.resultsFor sSearchResultSelector).length < 3 := by
    rw [List.length_take]; omega
  cases hcf : env.countFault
  · by_cases hc3 : (env.afterMain.resultsFor sSearchResultSelector).length < 3
    · cases hrg : env.retryGotoOk <;> simp [hc3, hlen.mpr hc3]
    · have hn3 : ¬ n < 3 := by omega
      simp [hc3, hn3]
  · simp

theorem scanWithPage_product_eq (item : MusicItem) (e1 e2 : Env)
    (h : e1.product = e2.product) :
    ∀ l, scanWithPage item e1 l = scanWithPage item e2 l := by
  intro l
  induction l with
  | nil => rfl
  | cons a rs ih => simp only [scanWithPage, h, ih]

theorem scanSequential_product_eq (item : MusicItem) (e1 e2 : Env)
    (h : e1.product = e2.product) :
    ∀ l, scanSequential item e1 l = scanSequential item e2 l := by
  intro l
  induction l with
  | nil => rfl
  | cons a rs ih => simp only [scanSequential, h, ih]

theorem find?_eq_head?_filter {α : Type} (p : α → Bool) (l : List α) :
    l.find? p = (l.filter p).head? := by
  induction l with
  | nil => rfl
  | cons a l ih =>
    simp only [List.find?_cons, List.filter_cons]
    cases hpa : p a
    · simpa [hpa] using ih
    · simp [hpa]

/-- Claim C7: both extractors read only the first five search results (the
batch extractor in fact reads only three, which a cut at five preserves):
truncating every result list to its first five entries changes neither
observation.  The title of each examined result is the first title-selector
text with non-whitespace content, with the whole element text as fallback. -/
theorem c7_result_scan (item : MusicItem) (env : Env) :
    searchForTrackWithPage item (truncateResults env 5) = searchForTrackWithPage item env ∧
    searchForTrack item (truncateResults env 5) = searchForTrack item env ∧
    ∀ r : ResultEl,
      titleOf r = (((titleSelectors.filterMap r.titleFor).filter hasContent).head?).getD
        r.fullText := by
  have hprod : (truncateResults env 5).product = env.product := rfl
  have hsg : (truncateResults env 5).searchGoto = env.searchGoto := rfl
  have hpick : pickResults (currentSearchPage (truncateResults env 5))
      = (pickResults (currentSearchPage env)).take 5 := by
    have hcur := currentSearchPage_truncate env 5 (by omega)
    rw [hcur]
    have hp := pickResults_truncate ((currentSearchPage env).resultsFor) 5 (by omega)
    simpa using hp
  have hmin : min 3 5 = 3 := by decide
  have hmin5 : min 5 5 = 5 := by decide
  refine ⟨?_, ?_, ?_⟩
  · unfold searchForTrackWithPage
    rw [hsg]
    cases env.searchGoto with
    | error e => rfl
    | ok u =>
      simp only [hpick, List.take_take, hmin, hmin5,
        isEmpty_take_eq _ 5 (by omega),
        scanWithPage_product_eq item (truncateResults env 5) env hprod]
  · unfold searchForTrack
    rw [hsg]
    cases env.searchGoto with
    | error e => rfl
    | ok u =>
      simp only [hpick, List.take_take, hmin, hmin5,
        isEmpty_take_eq _ 5 (by omega),
        scanSequential_product_eq item (truncateResults env 5) env hprod]
  · intro r
    unfold titleOf
    rw [find?_eq_head?_filter]
    cases ((titleSelectors.filterMap r.titleFor).filter hasContent).head? with
    | none => rfl
    | some t => rfl

/-! ## Claim C8: comparing the two extractors -/


/-- Counterexample to claim C8: under identical page behaviour the
sequential extractor finds the modal price even though the menu interaction
failed, while the batch extractor gives up, so the two observations differ. -/
theorem c8_counterexample :
    (searchForTrack cexItem cexEnv).available = true ∧
    (searchForTrackWithPage cexItem cexEnv).available = false ∧
    searchForTrack cexItem cexEnv ≠ searchForTrackWithPage cexItem cexEnv := by decide

/-- Agreement of the two scans on the shared fields, for environments in
which every purchase-menu interaction succeeds. -/
theorem scan_agree (item : MusicItem) (env : Env)
    (hmenu : ∀ url, (env.product url).foundMenu = true) :
    ∀ l, (∃ e, scanWithPage item env l = Except.error e ∧
            scanSequential item env l = Except.error e) ∨
      (∃ r1 r2, scanWithPage item env l = Except.ok r1 ∧
        scanSequential item env l = Except.ok r2 ∧
        r1.artist = r2.artist ∧ r1.song = r2.song ∧ r1.album = r2.album ∧
        r1.trackPrice = r2.trackPrice ∧ r1.available = r2.available ∧
        r1.searchQuery = r2.searchQuery ∧ r1.error = r2.error) := by
  intro l
  induction l with
  | nil =>
    exact Or.inr ⟨noPriceFound item, noPriceFound item, rfl, rfl,
      rfl, rfl, rfl, rfl, rfl, rfl, rfl⟩
  | cons a rs ih =>
    by_cases hacc : acceptCandidate (titleOf a) item
    · by_cases hhref : linkOf a = ""
      · simpa [scanWithPage, scanSequential, hacc, hhref] using ih
      · cases hg : (env.product (productUrlOf (linkOf a))).gotoResult with
        | error e =>
          refine Or.inl ⟨e, ?_, ?_⟩ <;>
            simp [scanWithPage, scanSequential, hacc, hhref, hg]
        | ok u =>
          have hm := hmenu (productUrlOf (linkOf a))
          cases hp : modalPriceOf (env.product (productUrlOf (linkOf a))) with
          | some p =>
            exact Or.inr ⟨{ initResult item with trackPrice := p, available := true },
              { initResult item with
                  trackPrice := p
                  available := true
                  albumPrice := albumPriceOf (env.product (productUrlOf (linkOf a)))
                  albumName := albumNameOf (env.product (productUrlOf (linkOf a))) },
              by simp [scanWithPage, hacc, hhref, hg, hm, hp],
              by simp [scanSequential, hacc, hhref, hg, hp],
              rfl, rfl, rfl, rfl, rfl, rfl, rfl⟩
          | none =>
            exact Or.inr ⟨noPriceFound item, noPriceFound item,
              by simp [scanWithPage, hacc, hhref, hg, hm, hp],
              by simp [scanSequential, hacc, hhref, hg, hp],
              rfl, rfl, rfl, rfl, rfl, rfl, rfl⟩
    · simpa [scanWithPage, scanSequential, hacc] using ih

/-- Claim C8, amended: the two extraction modes only agree in general on
the shared logic; whenever every purchase-menu interaction succeeds and the
chosen result list has at most 3 entries (so the differing scan limits of 3
versus 5 are not exercised), the two extractors return observations that
agree on artist, song, album, trackPrice, available, searchQuery and error
(the sequential mode may additionally fill albumPrice and albumName). -/
theorem c8_amended (item : MusicItem) (env : Env)
    (hmenu : ∀ url, (env.product url).foundMenu = true)
    (hlen : (pickResults (currentSearchPage env)).length ≤ 3) :
    (searchForTrackWithPage item env).artist = (searchForTrack item env).artist ∧
    (searchForTrackWithPage item env).song = (searchForTrack item env).song ∧
    (searchForTrackWithPage item env).album = (searchForTrack item env).album ∧
    (searchForTrackWithPage item env).trackPrice = (searchForTrack item env).trackPrice ∧
    (searchForTrackWithPage item env).available = (searchForTrack item env).available ∧
    (searchForTrackWithPage item env).searchQuery = (searchForTrack item env).searchQuery ∧
    (searchForTrackWithPage item env).error = (searchForTrack item env).error := by
  unfold searchForTrackWithPage searchForTrack
  cases hg : env.searchGoto with
  | error e => exact ⟨rfl, rfl, rfl, rfl, rfl, rfl, rfl⟩
  | ok u =>
    have ht3 : (pickResults (currentSearchPage env)).take 3
        = pickResults (currentSearchPage env) := List.take_of_length_le hlen
    have ht5 : (pickResults (currentSearchPage env)).take 5
        = pickResults (currentSearchPage env) :=
      List.take_of_length_le (le_trans hlen (by omega))
    by_cases he : (pickResults (currentSearchPage env)).isEmpty
    · simp [he]
    · simp only [he, Bool.false_eq_true, if_false, ht3, ht5]
      rcases scan_agree item env hmenu (pickResults (currentSearchPage env)) with
        ⟨e, h1, h2⟩ | ⟨r1, r2, h1, h2, hc⟩
      · rw [h1, h2]
        exact ⟨rfl, rfl, rfl, rfl, rfl, rfl, rfl⟩
      · rw [h1, h2]
        exact hc


/-- Witness for c8_amended on the one-result menu-success environment. -/
theorem c8_amended_witness :
    (searchForTrackWithPage cexItem menuEnv).artist = (searchForTrack cexItem menuEnv).artist ∧
    (searchForTrackWithPage cexItem menuEnv).song = (searchForTrack cexItem menuEnv).song ∧
    (searchForTrackWithPage cexItem menuEnv).album = (searchForTrack cexItem menuEnv).album ∧
    (searchForTrackWithPage cexItem menuEnv).trackPrice
      = (searchForTrack cexItem menuEnv).trackPrice ∧
    (searchForTrackWithPage cexItem menuEnv).available
      = (searchForTrack cexItem menuEnv).available ∧
    (searchForTrackWithPage cexItem menuEnv).searchQuery
      = (searchForTrack cexItem menuEnv).searchQuery ∧
    (searchForTrackWithPage cexItem menuEnv).error = (searchForTrack cexItem menuEnv).error :=
  c8_amended cexItem menuEnv (fun _ => rfl) (by decide)

/-- Claim C9 (optimizer modelled from the spec, analyzer.ts being absent
from src): every AlbumAnalysis the album-analysis pass produces satisfies
savings equal to totalTrackPrice minus albumPrice, trackCount equal to the
length of its tracks list, trackCount at least 3, and its (artist,
albumName) group really has at least 3 qualifying members, so no smaller
group ever produces an analysis. -/
theorem c9_album_analysis (obs : List PriceInfo) :
    ∀ a ∈ analyzeAlbums obs,
      a.savings = (a.totalTrackPrice : Int) - (a.albumPrice : Int) ∧
      a.trackCount = a.tracks.length ∧
      3 ≤ a.trackCount ∧
      3 ≤ (albumGroup obs (a.artist, a.albumName)).length := by
  intro a ha
  unfold analyzeAlbums at ha
  rcases List.mem_filterMap.mp ha with ⟨k, hk, hfk⟩
  by_cases h3 : 3 ≤ (albumGroup obs k).length
  · rw [if_pos h3, Option.some.injEq] at hfk
    subst hfk
    refine ⟨rfl, rfl, ?_, ?_⟩
    · show 3 ≤ ((albumGroup obs k).map (fun o => o.song)).length
      rw [List.length_map]
      exact h3
    · show 3 ≤ (albumGroup obs ((mkAlbumAnalysis k (albumGroup obs k)).artist,
        (mkAlbumAnalysis k (albumGroup obs k)).albumName)).length
      have hk1 : (mkAlbumAnalysis k (albumGroup obs k)).artist = k.1 := rfl
      have hk2 : (mkAlbumAnalysis k (albumGroup obs k)).albumName = k.2 := rfl
      rw [hk1, hk2, Prod.mk.eta]
      exact h3
  · rw [if_neg h3] at hfk
    exact absurd hfk (by simp)


/-- Witness for c9_album_analysis at the concrete three-track group. -/
theorem c9_album_analysis_witness :
    analysisW ∈ analyzeAlbums obsW ∧
    (analysisW.savings = (analysisW.totalTrackPrice : Int) - (analysisW.albumPrice : Int) ∧
     analysisW.trackCount = analysisW.tracks.length ∧
     3 ≤ analysisW.trackCount ∧
     3 ≤ (albumGroup obsW (analysisW.artist, analysisW.albumName)).length) :=
  ⟨by decide, c9_album_analysis obsW analysisW (by decide)⟩

/-! ## Claim C10: identity fields and the search query -/

/-- Counterexample to claim C10 as stated: for an item whose album is the
present but empty string, the claim predicts the query "a s " (artist,
space, song, space, album) since the album is present, but the source only
appends the album when it is truthy, so the query is "a s". -/
theorem c10_counterexample :
    (⟨"a", "s", some ""⟩ : MusicItem).album.isSome = true ∧
    (searchForTrackWithPage ⟨"a", "s", some ""⟩ trivEnv).searchQuery = "a s" ∧
    (searchForTrackWithPage ⟨"a", "s", some ""⟩ trivEnv).searchQuery ≠ "a s " := by decide

theorem searchForTrackWithPage_identity (item : MusicItem) (env : Env) :
    (searchForTrackWithPage item env).artist = item.artist ∧
    (searchForTrackWithPage item env).song = item.song ∧
    (searchForTrackWithPage item env).album = item.album ∧
    (searchForTrackWithPage item env).searchQuery = mkSearchQuery item := by
  rcases searchForTrackWithPage_cases item env with h | h | ⟨p, hp, h⟩ | ⟨m, h⟩ <;>
    rw [h] <;> exact ⟨rfl, rfl, rfl, rfl⟩

theorem searchForTrack_identity (item : MusicItem) (env : Env) :
    (searchForTrack item env).artist = item.artist ∧
    (searchForTrack item env).song = item.song ∧
    (searchForTrack item env).album = item.album ∧
    (searchForTrack item env).searchQuery = mkSearchQuery item := by
  rcases searchForTrack_cases item env with h | h | ⟨p, ap, an, hp, h⟩ | ⟨m, h⟩ <;>
    rw [h] <;> exact ⟨rfl, rfl, rfl, rfl⟩

/-- Claim C10, amended: on every outcome, both extractors and the batch
boundary record carry the input identity fields unchanged, and the search
query is artist, space, song, extended by a space and the album exactly
when the album is present and non-empty (the source tests JavaScript
truthiness, so a present empty-string album adds nothing). -/
theorem c10_identity_frame (item : MusicItem) (env : Env) (fault : Option String) :
    ((searchForTrackWithPage item env).artist = item.artist ∧
     (searchForTrackWithPage item env).song = item.song ∧
     (searchForTrackWithPage item env).album = item.album ∧
     (searchForTrackWithPage item env).searchQuery
       = item.artist ++ " " ++ item.song ++
         (match item.album with
          | some a => if a = "" then "" else " " ++ a
          | none => "")) ∧
    ((searchForTrack item env).artist = item.artist ∧
     (searchForTrack item env).song = item.song ∧
     (searchForTrack item env).album = item.album ∧
     (searchForTrack item env).searchQuery
       = item.artist ++ " " ++ item.song ++
         (match item.album with
          | some a => if a = "" then "" else " " ++ a
          | none => "")) ∧
    ((runScheduledItem item env fault).artist = item.artist ∧
     (runScheduledItem item env fault).song = item.song ∧
     (runScheduledItem item env fault).album = item.album ∧
     (runScheduledItem item env fault).searchQuery
       = item.artist ++ " " ++ item.song ++
         (match item.album with
          | some a => if a = "" then "" else " " ++ a
          | none => "")) := by
  refine ⟨searchForTrackWithPage_identity item env, searchForTrack_identity item env, ?_⟩
  cases fault with
  | some msg => exact ⟨rfl, rfl, rfl, rfl⟩
  | none => exact searchForTrackWithPage_identity item env
